import Mathlib

/-!
Verification of the Maestro servo controller driver (package `sc`).

The Go source is shallowly embedded: machine integers (`uint8`, `uint16`)
become `Nat` with explicit masking where overflow matters, `error` values
become `Option String` (`none` = Go `nil`), fallible operations return
`Except String α`, and the serial port is modelled as a record of pure
response functions together with an explicit log of the frames written.
-/

namespace Maestro

/-- Result of one `Read` call on the serial port: the byte count `n`
returned, the resulting buffer contents, and the returned error. -/
structure ReadResult where
  n : Nat
  data : List Nat
  err : Option String
deriving Repr

/-- The transport (`io.ReadWriter` in the source): the outcome of a
`Write` call on a given frame, and the outcome of a `Read` call for a
given buffer length. -/
structure Port where
  write : List Nat → Option String
  read : Nat → ReadResult

/-- Servo state (struct `Servo`): channel number, target bounds and
clamp policy. The back pointer to the controller is passed explicitly. -/
structure Servo where
  channel : Nat
  min : Nat
  max : Nat
  clamp : Bool

/-- Controller state (struct `Controller`): transport, device number,
compact-protocol flag, crc flag and the servo registry (`[maxServos]*Servo`,
modelled as a map from index to optional Servo). -/
structure Controller where
  port : Port
  device : Nat
  compact : Bool
  crc : Bool
  servo : Nat → Option Servo

-- command opcodes
def cmdSetTarget : Nat := 0x84
def cmdSetSpeed : Nat := 0x87
def cmdSetAcceleration : Nat := 0x89
def cmdSetPWM : Nat := 0x8a
def cmdGetPosition : Nat := 0x90
def cmdSetMultipleTargets : Nat := 0x9f
def cmdGetErrors : Nat := 0xa1

/-- position ticks per uSec of servo control pulse -/
def uSec : Nat := 4

/-- 14 bits of target position -/
def maxTarget : Nat := 0x3fff

/-- maximum number of servos per controller -/
def maxServos : Nat := 24

/-- the list of error condition names, one per bit 0..8 (`errorStrings`). -/
def errorStrings : List String :=
  ["serial signal error",
   "serial overrun error",
   "serial buffer full",
   "serial crc error",
   "serial protocol error",
   "serial timeout",
   "script stack error",
   "script call stack error",
   "script program counter error"]

/-- the accumulation loop of `GetError`: walk `errorStrings` with index,
keeping the names of the set bits of `val`. -/
def collectErrors (val : Nat) : Nat → List String → List String
  | _, [] => []
  | i, e :: rest =>
    if val &&& (1 <<< i) ≠ 0 then e :: collectErrors val (i + 1) rest
    else collectErrors val (i + 1) rest

/-- `GetError` converts an error bitmap into an error value
(`none` = Go `nil`, `some` = a composite error string). -/
def GetError (val : Nat) : Option String :=
  let s := collectErrors val 0 errorStrings
  if s = [] then none else some (String.intercalate "," s)

/-- `crc7Poly` -/
def crc7Poly : Nat := 0x91

/-- one iteration of the loop body of `getCRCForByte`: conditional xor
with the polynomial, then a right shift by one. -/
def crcStep (val : Nat) : Nat :=
  (if val &&& 1 ≠ 0 then val ^^^ crc7Poly else val) >>> 1

/-- `getCRCForByte`: 8 iterations of `crcStep`. -/
def getCRCForByte (val : Nat) : Nat :=
  (List.range 8).foldl (fun v _ => crcStep v) val

/-- `crcTable`: entry `i` of the 256-entry lookup table. -/
def crcTable (i : Nat) : Nat := getCRCForByte (i % 256)

/-- `crc7`: fold the table lookup over the buffer, starting from `crc`. -/
def crc7 (crc : Nat) (buf : List Nat) : Nat :=
  buf.foldl (fun c v => crcTable (c ^^^ v)) crc

/-- `Controller.cmdPreamble` -/
def Controller.cmdPreamble (c : Controller) (command : Nat) : List Nat :=
  if c.compact then [command] else [0xaa, c.device, command &&& 0x7f]

/-- `Controller.cmdWrite`: optionally extend the frame with a crc byte,
then perform one `Write` call. Returns the write's error result and the
updated write log. -/
def cmdWrite (c : Controller) (cmd : List Nat) (log : List (List Nat)) :
    Option String × List (List Nat) :=
  let frame := if c.crc then cmd ++ [crc7 0 cmd &&& 0x7f] else cmd
  (c.port.write frame, log ++ [frame])

/-- `Controller.rspRead`: one `Read` call for `len` bytes; a transport
error is propagated, and `n != len` yields the distinct "short read"
error. -/
def rspRead (c : Controller) (len : Nat) : Except String (List Nat) :=
  let r := c.port.read len
  match r.err with
  | some e => Except.error e
  | none => if r.n ≠ len then Except.error "short read" else Except.ok r.data

/-- `Controller.GetErrors`: write the get-errors command, read 2 bytes,
decode `(buf[0] & 0x7f) + ((buf[1] & 0x7f) << 8)`. -/
def GetErrors (c : Controller) (log : List (List Nat)) :
    Except String Nat × List (List Nat) :=
  match cmdWrite c (c.cmdPreamble cmdGetErrors) log with
  | (some e, log2) => (Except.error e, log2)
  | (none, log2) =>
    match rspRead c 2 with
    | Except.error e => (Except.error e, log2)
    | Except.ok data =>
      (Except.ok ((data.getD 0 0 &&& 0x7f) + ((data.getD 1 0 &&& 0x7f) <<< 8)),
       log2)

/-- `Controller.NewServo`: register a servo on a channel; fails when the
channel is out of range, otherwise stores a fresh servo with the default
bounds in the registry slot. Returns the servo and the updated
controller. -/
def NewServo (c : Controller) (channel : Nat) :
    Except String (Servo × Controller) :=
  if channel ≥ maxServos then
    Except.error ("bad servo channel " ++ toString channel)
  else
    let s : Servo :=
      { channel := channel, min := 500 * uSec, max := 2500 * uSec,
        clamp := false }
    Except.ok (s, { c with servo := fun i => if i = channel then some s else c.servo i })

/-- `lo` -/
def lo (x : Nat) : Nat := x &&& 0x7f

/-- `hi` -/
def hi (x : Nat) : Nat := (x >>> 7) &&& 0x7f

/-- `Servo.cmdPreamble` -/
def Servo.cmdPreamble (s : Servo) (c : Controller) (command : Nat) : List Nat :=
  if c.compact then [command, s.channel]
  else [0xaa, c.device, command &&& 0x7f, s.channel]

/-- `Servo.checkTarget`: clamp/limit the servo target value. -/
def Servo.checkTarget (s : Servo) (target : Nat) : Nat × Option String :=
  if s.clamp then
    if target < s.min then (s.min, none)
    else if target > s.max then (s.max, none)
    else (target, none)
  else
    if target < s.min then (s.min, some "target too low")
    else if target > s.max then (s.max, some "target too high")
    else (target, none)

/-- `Servo.SetLimits`: validate and update the target bounds; on failure
the servo is returned unchanged. -/
def Servo.SetLimits (s : Servo) (mn mx : Nat) : Servo × Option String :=
  if mx > mn then (s, some "max > min")
  else if mn > maxTarget then (s, some ("min > " ++ toString maxTarget))
  else if mx > maxTarget then (s, some ("max > " ++ toString maxTarget))
  else ({ s with min := mn, max := mx }, none)

/-- `Servo.SetSpeed` -/
def Servo.SetSpeed (s : Servo) (c : Controller) (speed : Nat)
    (log : List (List Nat)) : Option String × List (List Nat) :=
  cmdWrite c (s.cmdPreamble c cmdSetSpeed ++ [lo speed, hi speed]) log

/-- `Servo.SetAcceleration` -/
def Servo.SetAcceleration (s : Servo) (c : Controller) (acceleration : Nat)
    (log : List (List Nat)) : Option String × List (List Nat) :=
  cmdWrite c (s.cmdPreamble c cmdSetAcceleration ++ [lo acceleration, hi acceleration]) log

/-- `Servo.SetPWM` -/
def Servo.SetPWM (s : Servo) (c : Controller) (ontime period : Nat)
    (log : List (List Nat)) : Option String × List (List Nat) :=
  cmdWrite c (s.cmdPreamble c cmdSetPWM ++ [lo ontime, hi ontime, lo period, hi period]) log

/-- `Servo.GetPosition`: write the get-position command, read 2 bytes,
decode the plain little-endian value `buf[0] + (buf[1] << 8)`. -/
def GetPosition (s : Servo) (c : Controller) (log : List (List Nat)) :
    Except String Nat × List (List Nat) :=
  match cmdWrite c (s.cmdPreamble c cmdGetPosition) log with
  | (some e, log2) => (Except.error e, log2)
  | (none, log2) =>
    match rspRead c 2 with
    | Except.error e => (Except.error e, log2)
    | Except.ok data =>
      (Except.ok (data.getD 0 0 + ((data.getD 1 0) <<< 8)), log2)

/-- the validating loop body of `Controller.SetTargets`: for each target,
compute the channel as `uint8` arithmetic, check registration and the
target bounds, and emit the encoded byte pair; the first failure aborts. -/
def buildPayload (c : Controller) (channel : Nat) :
    List Nat → Nat → Except String (List Nat)
  | [], _ => Except.ok []
  | v :: rest, i =>
    let ch := (channel + i) % 256
    if ch ≥ maxServos then Except.error ("bad servo channel " ++ toString ch)
    else
      match c.servo ch with
      | none => Except.error ("bad servo channel " ++ toString ch)
      | some sv =>
        match sv.checkTarget v with
        | (_, some e) => Except.error (e ++ " for channel " ++ toString ch)
        | (val, none) =>
          match buildPayload c channel rest (i + 1) with
          | Except.error e => Except.error e
          | Except.ok tail => Except.ok (lo val :: hi val :: tail)

/-- `Controller.SetTargets`: empty target list is a no-op; otherwise
validate and encode every target, and only on full success perform the
single `cmdWrite` of the complete frame. -/
def SetTargets (c : Controller) (channel : Nat) (targets : List Nat)
    (log : List (List Nat)) : Option String × List (List Nat) :=
  if targets.length = 0 then (none, log)
  else
    match buildPayload c channel targets 0 with
    | Except.error e => (some e, log)
    | Except.ok payload =>
      cmdWrite c
        (c.cmdPreamble cmdSetMultipleTargets ++ [targets.length % 256, channel] ++ payload)
        log

instance {α β : Type} [DecidableEq α] [DecidableEq β] : DecidableEq (Except α β) := fun a b =>
  match a, b with
  | Except.ok x, Except.ok y =>
    if h : x = y then isTrue (by rw [h]) else isFalse (fun hh => h (Except.ok.inj hh))
  | Except.error x, Except.error y =>
    if h : x = y then isTrue (by rw [h]) else isFalse (fun hh => h (Except.error.inj hh))
  | Except.ok _, Except.error _ => isFalse (fun hh => Except.noConfusion hh)
  | Except.error _, Except.ok _ => isFalse (fun hh => Except.noConfusion hh)

/-- a port whose writes always succeed and whose reads always return
`n` bytes with contents `data`. -/
def mkPort (n : Nat) (data : List Nat) : Port :=
  { write := fun _ => none, read := fun _ => { n := n, data := data, err := none } }

/-- a controller on a given port with an empty servo registry. -/
def mkCtrl (p : Port) (crcOn : Bool) : Controller :=
  { port := p, device := 12, compact := true, crc := crcOn, servo := fun _ => none }

lemma land127 (x : Nat) : x &&& 127 = x % 128 :=
  Nat.and_pow_two_sub_one_eq_mod x 7

lemma shr7 (x : Nat) : x >>> 7 = x / 128 :=
  Nat.shiftRight_eq_div_pow x 7

lemma shl7 (x : Nat) : x <<< 7 = x * 128 :=
  Nat.shiftLeft_eq x 7

/-- Claim C7: for every value in `[0, 0x3FFF]`, recombining the encoded
low/high byte pair with the decode rule `low + (high << 7)` reconstructs
the value exactly. -/
theorem codec_roundtrip (v : Nat) (h : v ≤ maxTarget) :
    lo v + ((hi v) <<< 7) = v := by
  have h1 := land127 v
  have h2 := land127 (v >>> 7)
  have h3 := shr7 v
  have h4 := shl7 (hi v)
  have hm : maxTarget = 16383 := rfl
  unfold lo hi at *
  omega

theorem codec_roundtrip_witness :
    12345 ≤ maxTarget ∧ lo 12345 + ((hi 12345) <<< 7) = 12345 :=
  ⟨by decide, codec_roundtrip 12345 (by decide)⟩

/-- Claim C5: the checksum is the fold `crc := table[crc xor byte]` over
the input starting from the seed; `table[b]` is obtained from the byte
`b` by 8 iterations of the conditional-xor-with-0x91-then-shift step;
`checksum(0, [])` is 0; and with checksum mode on, `cmdWrite` appends to
the frame exactly one trailing byte equal to `checksum(0, frame) & 0x7F`. -/
theorem crc7_cmdWrite_spec :
    crc7 0 [] = 0 ∧
    (∀ seed b rest, crc7 seed (b :: rest) = crc7 (crcTable (seed ^^^ b)) rest) ∧
    (∀ b, b < 256 →
      crcTable b = (fun v => (if v % 2 = 1 then v ^^^ 0x91 else v) / 2)^[8] b) ∧
    (∀ (c : Controller) (cmd : List Nat) (log : List (List Nat)), c.crc = true →
      cmdWrite c cmd log =
        (c.port.write (cmd ++ [crc7 0 cmd &&& 0x7f]),
         log ++ [cmd ++ [crc7 0 cmd &&& 0x7f]])) := by
  have hstep : ∀ v, crcStep v = (if v % 2 = 1 then v ^^^ 0x91 else v) / 2 := by
    intro v
    rcases Nat.mod_two_eq_zero_or_one v with h | h <;>
      simp [crcStep, Nat.and_one_is_mod, crc7Poly, h] <;> omega
  refine ⟨rfl, fun seed b rest => rfl, ?_, ?_⟩
  · intro b hb
    have h1 : crcTable b =
        crcStep (crcStep (crcStep (crcStep (crcStep (crcStep (crcStep (crcStep b))))))) := by
      unfold crcTable
      rw [Nat.mod_eq_of_lt hb]
      rfl
    have h2 : (fun v => (if v % 2 = 1 then v ^^^ 0x91 else v) / 2)^[8] b =
        (fun v => (if v % 2 = 1 then v ^^^ 0x91 else v) / 2)
          ((fun v => (if v % 2 = 1 then v ^^^ 0x91 else v) / 2)
          ((fun v => (if v % 2 = 1 then v ^^^ 0x91 else v) / 2)
          ((fun v => (if v % 2 = 1 then v ^^^ 0x91 else v) / 2)
          ((fun v => (if v % 2 = 1 then v ^^^ 0x91 else v) / 2)
          ((fun v => (if v % 2 = 1 then v ^^^ 0x91 else v) / 2)
          ((fun v => (if v % 2 = 1 then v ^^^ 0x91 else v) / 2)
          ((fun v => (if v % 2 = 1 then v ^^^ 0x91 else v) / 2) b))))))) := rfl
    rw [h1, h2]
    simp only [hstep]
  · intro c cmd log h
    simp [cmdWrite, h]

theorem crc7_cmdWrite_spec_witness :
    crcTable 5 = (fun v => (if v % 2 = 1 then v ^^^ 0x91 else v) / 2)^[8] 5 ∧
    cmdWrite (mkCtrl (mkPort 0 []) true) [0x84] [] =
      ((mkCtrl (mkPort 0 []) true).port.write ([0x84] ++ [crc7 0 [0x84] &&& 0x7f]),
       [] ++ [[0x84] ++ [crc7 0 [0x84] &&& 0x7f]]) :=
  ⟨crc7_cmdWrite_spec.2.2.1 5 (by decide),
   crc7_cmdWrite_spec.2.2.2 (mkCtrl (mkPort 0 []) true) [0x84] [] rfl⟩

/-- Claim C2: `SetLimits` fails and leaves the stored bounds unchanged
whenever `max > min`, `min > 0x3FFF` or `max > 0x3FFF`; otherwise it
succeeds and replaces the stored bounds (acceptance predicate
`max <= min AND min <= 0x3FFF AND max <= 0x3FFF`). -/
theorem SetLimits_spec (s : Servo) (mn mx : Nat) :
    ((mx > mn ∨ mn > maxTarget ∨ mx > maxTarget) →
      (s.SetLimits mn mx).1 = s ∧ (s.SetLimits mn mx).2 ≠ none) ∧
    (mx ≤ mn → mn ≤ maxTarget → mx ≤ maxTarget →
      s.SetLimits mn mx = ({ s with min := mn, max := mx }, none)) := by
  constructor
  · intro h
    unfold Servo.SetLimits
    split_ifs with h1 h2 h3 <;> simp_all
  · intro h1 h2 h3
    unfold Servo.SetLimits
    split_ifs <;> simp_all <;> omega

theorem SetLimits_spec_witness :
    ((⟨0, 2000, 10000, false⟩ : Servo).SetLimits 3000 5000).1 = ⟨0, 2000, 10000, false⟩ ∧
    ((⟨0, 2000, 10000, false⟩ : Servo).SetLimits 3000 5000).2 ≠ none ∧
    (⟨0, 2000, 10000, false⟩ : Servo).SetLimits 3000 2500 =
      ((⟨0, 3000, 2500, false⟩ : Servo), none) := by
  have h1 := (SetLimits_spec ⟨0, 2000, 10000, false⟩ 3000 5000).1 (Or.inl (by decide))
  have h2 := (SetLimits_spec ⟨0, 2000, 10000, false⟩ 3000 2500).2 (by decide) (by decide) (by decide)
  exact ⟨h1.1, h1.2, h2⟩

/-- Claim C4: `checkTarget` under clamp policy never fails and clamps to
the violated bound; under reject policy it fails with "target too low"
below `min` and "target too high" above `max`; in-range values
(including the bounds themselves) pass through unchanged with success. -/
theorem checkTarget_spec (s : Servo) (t : Nat) (hb : s.min ≤ s.max) :
    (s.clamp = true → (s.checkTarget t).2 = none) ∧
    (s.clamp = true → t < s.min → s.checkTarget t = (s.min, none)) ∧
    (s.clamp = true → t > s.max → s.checkTarget t = (s.max, none)) ∧
    (s.clamp = true → s.min ≤ t → t ≤ s.max → s.checkTarget t = (t, none)) ∧
    (s.clamp = false → t < s.min → s.checkTarget t = (s.min, some "target too low")) ∧
    (s.clamp = false → t > s.max → s.checkTarget t = (s.max, some "target too high")) ∧
    (s.clamp = false → s.min ≤ t → t ≤ s.max → s.checkTarget t = (t, none)) := by
  unfold Servo.checkTarget
  refine ⟨?_, ?_, ?_, ?_, ?_, ?_, ?_⟩ <;> intro hc <;> simp [hc] <;>
    split_ifs <;> simp_all <;> omega

theorem checkTarget_spec_witness :
    ((⟨0, 2000, 10000, true⟩ : Servo).checkTarget 1000).2 = none ∧
    (⟨0, 2000, 10000, true⟩ : Servo).checkTarget 1000 = (2000, none) ∧
    (⟨0, 2000, 10000, true⟩ : Servo).checkTarget 20000 = (10000, none) ∧
    (⟨0, 2000, 10000, true⟩ : Servo).checkTarget 2000 = (2000, none) ∧
    (⟨0, 2000, 10000, false⟩ : Servo).checkTarget 1000 = (2000, some "target too low") ∧
    (⟨0, 2000, 10000, false⟩ : Servo).checkTarget 20000 = (10000, some "target too high") ∧
    (⟨0, 2000, 10000, false⟩ : Servo).checkTarget 10000 = (10000, none) :=
  ⟨(checkTarget_spec ⟨0, 2000, 10000, true⟩ 1000 (by decide)).1 rfl,
   (checkTarget_spec ⟨0, 2000, 10000, true⟩ 1000 (by decide)).2.1 rfl (by decide),
   (checkTarget_spec ⟨0, 2000, 10000, true⟩ 20000 (by decide)).2.2.1 rfl (by decide),
   (checkTarget_spec ⟨0, 2000, 10000, true⟩ 2000 (by decide)).2.2.2.1 rfl (by decide) (by decide),
   (checkTarget_spec ⟨0, 2000, 10000, false⟩ 1000 (by decide)).2.2.2.2.1 rfl (by decide),
   (checkTarget_spec ⟨0, 2000, 10000, false⟩ 20000 (by decide)).2.2.2.2.2.1 rfl (by decide),
   (checkTarget_spec ⟨0, 2000, 10000, false⟩ 10000 (by decide)).2.2.2.2.2.2 rfl (by decide) (by decide)⟩

/-- Claim C8: `NewServo` (channel registration) fails with the
channel-out-of-range error exactly when the index is at least 24; on
success it stores a servo with default bounds 2000/10000 and reject
policy in the indexed slot, leaving every other slot unchanged. -/
theorem NewServo_spec (c : Controller) (channel : Nat) :
    (channel ≥ maxServos →
      NewServo c channel = Except.error ("bad servo channel " ++ toString channel)) ∧
    (channel < maxServos →
      ∃ s c2, NewServo c channel = Except.ok (s, c2) ∧
        s.channel = channel ∧ s.min = 2000 ∧ s.max = 10000 ∧ s.clamp = false ∧
        c2.servo channel = some s ∧
        (∀ j, j ≠ channel → c2.servo j = c.servo j) ∧
        c2.port = c.port ∧ c2.device = c.device ∧
        c2.compact = c.compact ∧ c2.crc = c.crc) := by
  constructor
  · intro h
    simp [NewServo, h]
  · intro h
    have h2 : ¬ channel ≥ maxServos := by omega
    refine ⟨⟨channel, 500 * uSec, 2500 * uSec, false⟩,
      { c with servo := fun i =>
          if i = channel then some ⟨channel, 500 * uSec, 2500 * uSec, false⟩
          else c.servo i },
      by simp [NewServo, h2], rfl, rfl, rfl, rfl, by simp, ?_, rfl, rfl, rfl, rfl⟩
    intro j hj
    simp [hj]

theorem NewServo_spec_witness :
    NewServo (mkCtrl (mkPort 0 []) false) 24 = Except.error "bad servo channel 24" ∧
    (NewServo (mkCtrl (mkPort 0 []) false) 23).toOption.map
      (fun p => (p.1.channel, p.1.min, p.1.max, p.1.clamp)) =
      some (23, 2000, 10000, false) := by
  have h1 := (NewServo_spec (mkCtrl (mkPort 0 []) false) 24).1 (by decide)
  have h2 := (NewServo_spec (mkCtrl (mkPort 0 []) false) 23).2 (by decide)
  obtain ⟨s, c2, heq, hch, hmin, hmax, hcl, -⟩ := h2
  refine ⟨h1, ?_⟩
  rw [heq]
  simp [Except.toOption, hch, hmin, hmax, hcl]

/-- Claim C10: `SetSpeed`, `SetAcceleration` and `SetPWM` perform no
range validation: the payload bytes for a value `v` are `v & 0x7F` and
`(v >> 7) & 0x7F`, so the value carried on the wire is `v mod 2^14`,
and the call's result is exactly the transport write's result. -/
theorem setRaw_spec (s : Servo) (c : Controller) (v p q : Nat)
    (log : List (List Nat)) (h : c.crc = false) :
    s.SetSpeed c v log =
      (c.port.write (s.cmdPreamble c cmdSetSpeed ++ [v &&& 0x7f, (v >>> 7) &&& 0x7f]),
       log ++ [s.cmdPreamble c cmdSetSpeed ++ [v &&& 0x7f, (v >>> 7) &&& 0x7f]]) ∧
    s.SetAcceleration c v log =
      (c.port.write (s.cmdPreamble c cmdSetAcceleration ++ [v &&& 0x7f, (v >>> 7) &&& 0x7f]),
       log ++ [s.cmdPreamble c cmdSetAcceleration ++ [v &&& 0x7f, (v >>> 7) &&& 0x7f]]) ∧
    s.SetPWM c p q log =
      (c.port.write (s.cmdPreamble c cmdSetPWM ++
         [p &&& 0x7f, (p >>> 7) &&& 0x7f, q &&& 0x7f, (q >>> 7) &&& 0x7f]),
       log ++ [s.cmdPreamble c cmdSetPWM ++
         [p &&& 0x7f, (p >>> 7) &&& 0x7f, q &&& 0x7f, (q >>> 7) &&& 0x7f]]) ∧
    (v &&& 0x7f) + (((v >>> 7) &&& 0x7f) <<< 7) = v % 16384 := by
  refine ⟨?_, ?_, ?_, ?_⟩
  · simp [Servo.SetSpeed, cmdWrite, h, lo, hi]
  · simp [Servo.SetAcceleration, cmdWrite, h, lo, hi]
  · simp [Servo.SetPWM, cmdWrite, h, lo, hi]
  · have h1 := land127 v
    have h2 := land127 (v >>> 7)
    have h3 := shr7 v
    have h4 := shl7 ((v >>> 7) &&& 0x7f)
    omega

theorem setRaw_spec_witness :
    (⟨3, 2000, 10000, false⟩ : Servo).SetSpeed (mkCtrl (mkPort 0 []) false) 50000 [] =
      ((mkCtrl (mkPort 0 []) false).port.write
        ((⟨3, 2000, 10000, false⟩ : Servo).cmdPreamble (mkCtrl (mkPort 0 []) false) cmdSetSpeed ++
          [50000 &&& 0x7f, (50000 >>> 7) &&& 0x7f]),
       [] ++ [(⟨3, 2000, 10000, false⟩ : Servo).cmdPreamble (mkCtrl (mkPort 0 []) false) cmdSetSpeed ++
          [50000 &&& 0x7f, (50000 >>> 7) &&& 0x7f]]) ∧
    (50000 &&& 0x7f) + (((50000 >>> 7) &&& 0x7f) <<< 7) = 50000 % 16384 :=
  ⟨(setRaw_spec ⟨3, 2000, 10000, false⟩ (mkCtrl (mkPort 0 []) false) 50000 0 0 [] rfl).1,
   (setRaw_spec ⟨3, 2000, 10000, false⟩ (mkCtrl (mkPort 0 []) false) 50000 0 0 [] rfl).2.2.2⟩

/-- Claim C6: `GetPosition` reads a 2-byte reply and returns the plain
little-endian value `b0 + (b1 << 8)` with no 7-bit masking; when the
read returns without a transport error but with fewer than 2 bytes, the
call fails with the dedicated "short read" error and produces no
position value. -/
theorem GetPosition_spec (s : Servo) (c : Controller) (log : List (List Nat))
    (b0 b1 n : Nat) (data : List Nat) (hw : ∀ f, c.port.write f = none) :
    (c.port.read 2 = ⟨2, [b0, b1], none⟩ →
      (GetPosition s c log).1 = Except.ok (b0 + (b1 <<< 8))) ∧
    (c.port.read 2 = ⟨n, data, none⟩ → n ≠ 2 →
      (GetPosition s c log).1 = Except.error "short read") := by
  constructor
  · intro hr
    simp [GetPosition, cmdWrite, rspRead, hw, hr]
  · intro hr hn
    simp [GetPosition, cmdWrite, rspRead, hw, hr, hn]

theorem GetPosition_spec_witness :
    (GetPosition ⟨3, 2000, 10000, false⟩ (mkCtrl (mkPort 2 [0x90, 0xff]) false) []).1 =
      Except.ok (0x90 + (0xff <<< 8)) ∧
    (GetPosition ⟨3, 2000, 10000, false⟩ (mkCtrl (mkPort 1 [0x90, 0]) false) []).1 =
      Except.error "short read" :=
  ⟨(GetPosition_spec ⟨3, 2000, 10000, false⟩ (mkCtrl (mkPort 2 [0x90, 0xff]) false) []
      0x90 0xff 0 [] (fun _ => rfl)).1 rfl,
   (GetPosition_spec ⟨3, 2000, 10000, false⟩ (mkCtrl (mkPort 1 [0x90, 0]) false) []
      0 0 1 [0x90, 0] (fun _ => rfl)).2 rfl (by decide)⟩

/-- Claim C1 (counterexample): `GetErrors` does not decode the 2-byte
reply `(0, 1)` with the 7-bit-codec rule `(b0 & 0x7F) + ((b1 & 0x7F) << 7)`
(which would give 128): it shifts the masked high byte by 8, giving 256. -/
theorem GetErrors_shift7_counterexample :
    (GetErrors (mkCtrl (mkPort 2 [0, 1]) false) []).1 ≠
      Except.ok ((0 &&& 0x7f) + ((1 &&& 0x7f) <<< 7)) ∧
    (GetErrors (mkCtrl (mkPort 2 [0, 1]) false) []).1 = Except.ok 256 := by
  constructor
  · decide
  · decide

/-- Claim C1 (amended): for every 2-byte reply `(b0, b1)` read by
`GetErrors`, the returned error bitmask is
`(b0 & 0x7F) + ((b1 & 0x7F) << 8)` — both bytes are masked to 7 bits but
the high byte is shifted left by 8, not 7. -/
theorem GetErrors_decode (c : Controller) (log : List (List Nat)) (b0 b1 : Nat)
    (hw : ∀ f, c.port.write f = none)
    (hr : c.port.read 2 = ⟨2, [b0, b1], none⟩) :
    (GetErrors c log).1 = Except.ok ((b0 &&& 0x7f) + ((b1 &&& 0x7f) <<< 8)) := by
  simp [GetErrors, cmdWrite, rspRead, hw, hr]

theorem GetErrors_decode_witness :
    (GetErrors (mkCtrl (mkPort 2 [3, 1]) false) []).1 =
      Except.ok ((3 &&& 0x7f) + ((1 &&& 0x7f) <<< 8)) :=
  GetErrors_decode (mkCtrl (mkPort 2 [3, 1]) false) [] 3 1 (fun _ => rfl) rfl

lemma and_shift_testBit (val j : Nat) : (val &&& (1 <<< j) ≠ 0) ↔ val.testBit j = true := by
  rw [Nat.one_shiftLeft, Nat.and_two_pow]
  cases h : val.testBit j <;> simp [h, Nat.pow_eq_zero]

lemma collectErrors_eq (val : Nat) :
    ∀ (es : List String) (i : Nat),
      collectErrors val i es =
        ((List.range es.length).filter (fun j => val.testBit (i + j))).map
          (fun j => es.getD j "") := by
  intro es
  induction es with
  | nil => intro i; rfl
  | cons e rest ih =>
    intro i
    have hunf : collectErrors val i (e :: rest) =
        if val &&& (1 <<< i) ≠ 0 then e :: collectErrors val (i + 1) rest
        else collectErrors val (i + 1) rest := rfl
    have hmap : ((fun j => (e :: rest).getD j "") ∘ Nat.succ) = (fun j => rest.getD j "") := by
      funext j
      simp
    have hfil : ((fun j => val.testBit (i + j)) ∘ Nat.succ) =
        (fun j => val.testBit ((i + 1) + j)) := by
      funext j
      simp only [Function.comp_apply]
      congr 1
      omega
    rw [hunf, List.length_cons, List.range_succ_eq_map, List.filter_cons, List.filter_map,
        apply_ite (List.map (fun j => (e :: rest).getD j "")), List.map_cons, List.map_map,
        hmap, hfil, ← ih (i + 1)]
    by_cases hb : val.testBit (i + 0) = true
    · have hc : val &&& (1 <<< i) ≠ 0 := (and_shift_testBit val i).mpr (by simpa using hb)
      rw [if_pos hc, if_pos hb]
      simp
    · have hc : ¬ (val &&& (1 <<< i) ≠ 0) := fun hcc =>
        hb (by simpa using (and_shift_testBit val i).mp hcc)
      rw [if_neg hc, if_neg hb]

lemma mask511 (val : Nat) : val &&& 511 = 0 ↔ ∀ j, j ≤ 8 → val.testBit j = false := by
  rw [Nat.and_pow_two_sub_one_eq_mod val 9]
  constructor
  · intro h j hj
    have hm := Nat.testBit_mod_two_pow val 9 j
    rw [show (2 : Nat) ^ 9 = 512 by norm_num, h] at hm
    simp only [Nat.zero_testBit] at hm
    have hj9 : decide (j < 9) = true := by simp; omega
    rw [hj9] at hm
    simpa using hm.symm
  · intro h
    apply Nat.zero_of_testBit_eq_false
    intro i
    by_cases hi : i ≤ 8
    · rw [Nat.testBit_mod_two_pow]
      simp [h i hi]
    · apply Nat.testBit_lt_two_pow
      calc val % 512 < 512 := Nat.mod_lt _ (by norm_num)
        _ ≤ 2 ^ i := by
          have h9 : (9 : Nat) ≤ i := by omega
          calc (512 : Nat) = 2 ^ 9 := by norm_num
            _ ≤ 2 ^ i := Nat.pow_le_pow_right (by norm_num) h9

/-- Claim C9: `GetError` returns success (`none`) exactly when none of
bits 0..8 of the bitmask is set; otherwise it returns a composite error
listing the names of the set bits among positions 0..8, joined with ","
in ascending bit order. -/
theorem GetError_spec (val : Nat) :
    (GetError val = none ↔ ∀ i, i ≤ 8 → val.testBit i = false) ∧
    (val &&& 0x1ff ≠ 0 →
      GetError val = some (String.intercalate ","
        (((List.range 9).filter (fun i => val.testBit i)).map
          (fun i => errorStrings.getD i "")))) := by
  have heq : GetError val =
      if collectErrors val 0 errorStrings = [] then none
      else some (String.intercalate "," (collectErrors val 0 errorStrings)) := rfl
  have hkey : collectErrors val 0 errorStrings =
      ((List.range 9).filter (fun j => val.testBit j)).map
        (fun j => errorStrings.getD j "") := by
    have h := collectErrors_eq val errorStrings 0
    simpa [errorStrings] using h
  have hnil : collectErrors val 0 errorStrings = [] ↔
      ∀ i, i ≤ 8 → val.testBit i = false := by
    rw [hkey, List.map_eq_nil_iff, List.filter_eq_nil_iff]
    constructor
    · intro h i hi
      have hh := h i (List.mem_range.mpr (by omega))
      simpa using hh
    · intro h j hj
      have hj9 := List.mem_range.mp hj
      simp [h j (by omega)]
  constructor
  · rw [heq]
    split_ifs with h
    · simp only [true_iff]
      exact hnil.mp h
    · constructor
      · intro hc
        exact absurd hc (by simp)
      · intro hall
        exact absurd (hnil.mpr hall) h
  · intro hne
    have hne2 : ¬ collectErrors val 0 errorStrings = [] := by
      intro hz
      exact hne ((mask511 val).mpr (hnil.mp hz))
    rw [heq, if_neg hne2, hkey]

theorem GetError_spec_witness :
    GetError 3 = some "serial signal error,serial overrun error" ∧ GetError 0 = none := by
  have h1 := (GetError_spec 3).2 (by decide)
  have h2 := (GetError_spec 0).1.mpr (by decide)
  constructor
  · rw [h1]
    rfl
  · exact h2

lemma buildPayload_ok (c : Controller) (channel : Nat) :
    ∀ (targets : List Nat) (i0 : Nat) (p : List Nat),
      buildPayload c channel targets i0 = Except.ok p →
      ∀ j, j < targets.length →
        (channel + (i0 + j)) % 256 < maxServos ∧
        ∃ sv, c.servo ((channel + (i0 + j)) % 256) = some sv ∧
              (sv.checkTarget (targets.getD j 0)).2 = none := by
  intro targets
  induction targets with
  | nil =>
    intro i0 p h j hj
    simp at hj
  | cons v rest ih =>
    intro i0 p h j hj
    simp only [buildPayload] at h
    by_cases h1 : (channel + i0) % 256 ≥ maxServos
    · rw [if_pos h1] at h
      exact Except.noConfusion h
    rw [if_neg h1] at h
    rcases hs : c.servo ((channel + i0) % 256) with - | sv
    · simp only [hs] at h
      exact Except.noConfusion h
    simp only [hs] at h
    rcases hct : sv.checkTarget v with ⟨val, err⟩
    rcases err with - | e
    swap
    · simp only [hct] at h
      exact Except.noConfusion h
    simp only [hct] at h
    rcases hrec : buildPayload c channel rest (i0 + 1) with e | tail
    · simp only [hrec] at h
      exact Except.noConfusion h
    simp only [hrec] at h
    cases j with
    | zero =>
      simp only [Nat.add_zero]
      refine ⟨by omega, sv, hs, ?_⟩
      simp only [List.getD_cons_zero, hct]
    | succ j2 =>
      have hj2 : j2 < rest.length := by
        simp only [List.length_cons] at hj
        omega
      have hres := ih (i0 + 1) tail hrec j2 hj2
      have harith : i0 + 1 + j2 = i0 + (j2 + 1) := by omega
      rw [harith] at hres
      simpa using hres

lemma noWrap (channel L : Nat) (hc : channel < 256)
    (h : ∀ j, j < L → (channel + j) % 256 < maxServos) :
    ∀ j, j < L → channel + j < maxServos := by
  intro j
  induction j with
  | zero =>
    intro hj
    have h0 := h 0 hj
    rwa [Nat.add_zero, Nat.mod_eq_of_lt hc] at h0
  | succ j2 ih =>
    intro hj
    have hj2 : j2 < L := by omega
    have hprev := ih hj2
    have hms : maxServos = 24 := rfl
    have hlt : channel + (j2 + 1) < 256 := by omega
    have hnext := h (j2 + 1) hj
    rwa [Nat.mod_eq_of_lt hlt] at hnext

/-- Claim C3: if any index of the batched target list refers to a
channel at or beyond 24, an unregistered channel, or a target rejected
by that servo's `checkTarget`, then `SetTargets` returns an error and
performs zero writes to the transport; an empty target list is a no-op
success that also writes nothing. -/
theorem SetTargets_atomic (c : Controller) (channel : Nat) (targets : List Nat)
    (log : List (List Nat)) (hc : channel < 256)
    (h : ∃ i, i < targets.length ∧
      (channel + i ≥ maxServos ∨ c.servo (channel + i) = none ∨
       ∃ sv, c.servo (channel + i) = some sv ∧
             (sv.checkTarget (targets.getD i 0)).2 ≠ none)) :
    (SetTargets c channel targets log).1 ≠ none ∧
    (SetTargets c channel targets log).2 = log ∧
    SetTargets c channel [] log = (none, log) := by
  obtain ⟨i, hi, hbad⟩ := h
  have hne : ¬ targets.length = 0 := by omega
  rcases hbp : buildPayload c channel targets 0 with e | p
  · refine ⟨?_, ?_, rfl⟩ <;> simp [SetTargets, hne, hbp]
  · exfalso
    have hall := buildPayload_ok c channel targets 0 p hbp
    have hmod : ∀ j, j < targets.length → (channel + j) % 256 < maxServos := by
      intro j hj
      have hh := (hall j hj).1
      simpa using hh
    have hnw := noWrap channel targets.length hc hmod
    have hij := hall i hi
    simp only [Nat.zero_add] at hij
    have hlt := hnw i hi
    have hms : maxServos = 24 := rfl
    have hmodeq : (channel + i) % 256 = channel + i := Nat.mod_eq_of_lt (by omega)
    rw [hmodeq] at hij
    obtain ⟨hlt2, sv, hs, hok⟩ := hij
    rcases hbad with h24 | hnone | ⟨sv2, hs2, hbad2⟩
    · omega
    · rw [hs] at hnone
      exact Option.noConfusion hnone
    · rw [hs] at hs2
      have hsv : sv = sv2 := Option.some.inj hs2
      rw [← hsv] at hbad2
      exact hbad2 hok

theorem SetTargets_atomic_witness :
    (SetTargets (mkCtrl (mkPort 0 []) false) 0 [5000] []).1 ≠ none ∧
    (SetTargets (mkCtrl (mkPort 0 []) false) 0 [5000] []).2 = ([] : List (List Nat)) := by
  have h := SetTargets_atomic (mkCtrl (mkPort 0 []) false) 0 [5000] [] (by decide)
    ⟨0, by decide, Or.inr (Or.inl rfl)⟩
  exact ⟨h.1, h.2.1⟩

end Maestro
